import Mathlib

/-!
Shallow embedding of `crates/gpui2/src/app/model_context.rs`: the per-entity
mutation context of the reactive state kernel.  Entity ids and type ids are
`Nat`; type-erased boxed values (`Box<dyn Any>`) are a runtime type tag plus a
payload; the owning `AppContext` is a record of the state this file's methods
touch (entity storage, global slots, the pending-notification set, the
pending-effect queue and the five listener tables).  Collaborators that live
outside this file (`WeakModel::upgrade`, `Model::update`,
`AppContext::lease_global` / `end_global_lease`, `SubscriberSet::insert`) are
modelled from the spec and marked as such.
-/

namespace GpuiKernel

/-- A type-erased boxed value (Rust `Box<dyn Any>` / `&dyn Any`): a runtime
type tag plus a payload.  Stands in for entity state, global state and event
payloads. -/
structure AnyBox where
  typeId : Nat
  payload : Nat
deriving DecidableEq, Repr

/-- Rust `downcast_ref::<T>` on a type-erased value: succeeds with the payload
exactly when the runtime type tag matches the expected type. -/
def downcastRef (expected : Nat) (v : AnyBox) : Option Nat :=
  if v.typeId = expected then some v.payload else none

/-- The `Effect` variants this file produces: `Notify { emitter }` and
`Emit { emitter, event }`. -/
inductive Effect where
  | Notify (emitter : Nat)
  | Emit (emitter : Nat) (event : AnyBox)
deriving DecidableEq, Repr

/-- Entry stored by `observe`: the captured weak handle of the watcher, the
watched entity id and a tag standing for the boxed `on_notify` closure. -/
structure ObserverEntry where
  watcher : Nat
  watched : Nat
  handler : Nat
deriving DecidableEq, Repr

/-- Entry stored by `subscribe`: watcher, watched entity, the declared event
type of the watched emitter, and the `on_event` closure tag. -/
structure EventListenerEntry where
  watcher : Nat
  watched : Nat
  eventTy : Nat
  handler : Nat
deriving DecidableEq, Repr

/-- Entry in the release-listener table: either registered by `on_release`
(keyed by the entity itself, capturing its own type) or by `observe_release`
(capturing the watcher's weak handle and the watched entity's type). -/
inductive ReleaseEntry where
  | selfRelease (entityTy : Nat) (handler : Nat)
  | watcherRelease (watcher : Nat) (watchedTy : Nat) (handler : Nat)
deriving DecidableEq, Repr

/-- Entry stored by `observe_global`: the watcher's weak handle and the
closure tag; the table key is the global type id. -/
structure GlobalObserverEntry where
  watcher : Nat
  handler : Nat
deriving DecidableEq, Repr

/-- Entry stored by `on_app_quit`, keyed by the unit key. -/
structure QuitEntry where
  watcher : Nat
  handler : Nat
deriving DecidableEq, Repr

/-- The slice of the owning `AppContext` that `ModelContext` methods touch:
entity storage, global slots, the pending-notification set, the FIFO
pending-effect queue and the listener tables. -/
structure AppContext where
  entities : Nat → Option AnyBox
  globals : Nat → Option AnyBox
  pending_notifications : List Nat
  pending_effects : List Effect
  observers : List (Nat × ObserverEntry)
  event_listeners : List (Nat × EventListenerEntry)
  release_listeners : List (Nat × ReleaseEntry)
  global_observers : List (Nat × GlobalObserverEntry)
  quit_observers : List (Unit × QuitEntry)

/-- The opaque disposable token returned by a registration. -/
structure Subscription where
  idx : Nat
deriving DecidableEq, Repr

/-- Modelled from the spec: `SubscriberSet::insert` (the listener-table type
lives in the app-context layer, not in this file) appends one entry under the
given key and returns a disposable `Subscription` token for it. -/
def insertTable {κ α : Type} (key : κ) (e : α) (t : List (κ × α)) :
    Subscription × List (κ × α) :=
  (⟨t.length⟩, t ++ [(key, e)])

/-- Modelled from the spec: `WeakModel::upgrade` (entity storage lives in the
app-context layer, not in this file) is a fallible lookup that succeeds if and
only if the entity is still alive, returning a strong handle to the same
entity. -/
def upgrade (id : Nat) (app : AppContext) : Option Nat :=
  if (app.entities id).isSome then some id else none

/-- Replace the stored state of entity `id`. -/
def setEntity (id : Nat) (st : AnyBox) (app : AppContext) : AppContext :=
  { app with entities := fun i => if i = id then some st else app.entities i }

/-- Modelled from the spec: `Model::update` (provided by the owning app
context, not in this file) runs the closure with exclusive mutable access to
the entity's state under a fresh mutation context for that entity and writes
the state back; a dead entity is skipped. -/
def updateEntity (id : Nat)
    (f : AnyBox → AppContext → AnyBox × AppContext) (app : AppContext) :
    AppContext :=
  match app.entities id with
  | some st =>
      let r := f st app
      setEntity id r.1 r.2
  | none => app

/-- The programming-error class: conditions the source treats as fatal
invariant violations (`expect`, and the lease protocol's fail-fast). -/
inductive Fatal where
  | entityNotAlive
  | invalidEventType
  | invalidEntityType
  | globalAlreadyLeased
deriving DecidableEq, Repr

/-- The method `ModelContext::handle`: upgrade the context's own weak handle,
failing fatally (the `expect` branch) when the entity is not alive. -/
def handle (selfId : Nat) (app : AppContext) : Except Fatal Nat :=
  match upgrade selfId app with
  | some m => .ok m
  | none => .error .entityNotAlive

/-- The method `ModelContext::notify`: if this entity's id is newly inserted
into the pending-notification set, enqueue one `Notify` effect; otherwise do
nothing (`HashSet::insert` returns false and the queue is untouched). -/
def notify (selfId : Nat) (app : AppContext) : AppContext :=
  if selfId ∈ app.pending_notifications then app
  else
    { app with
      pending_notifications := app.pending_notifications ++ [selfId],
      pending_effects := app.pending_effects ++ [Effect.Notify selfId] }

/-- Iterate `notify` n times within the same mutation. -/
def notifyTimes (n : Nat) (selfId : Nat) (app : AppContext) : AppContext :=
  match n with
  | 0 => app
  | Nat.succ m => notifyTimes m selfId (notify selfId app)

/-- The method `ModelContext::emit`: push one `Emit` effect carrying this
entity's id and the boxed event onto the pending-effect queue. -/
def emit (selfId : Nat) (event : AnyBox) (app : AppContext) : AppContext :=
  { app with
    pending_effects := app.pending_effects ++ [Effect.Emit selfId event] }

/-- Call `emit` once per event, in list order, within one mutation. -/
def emitAll (selfId : Nat) (events : List AnyBox) (app : AppContext) :
    AppContext :=
  match events with
  | [] => app
  | e :: rest => emitAll selfId rest (emit selfId e app)

/-- Overwrite one global slot. -/
def setSlot (tid : Nat) (v : Option AnyBox) (g : Nat → Option AnyBox) :
    Nat → Option AnyBox :=
  fun t => if t = tid then v else g t

/-- The app context with the global slot for `tid` leased out (emptied). -/
def leaseCtx (tid : Nat) (app : AppContext) : AppContext :=
  { app with globals := setSlot tid none app.globals }

/-- Modelled from the spec: `AppContext::lease_global` (app-context layer, not
in this file) removes the sole instance of the global type from its slot,
leaving the slot empty while leased; requesting a lease while the slot is
already empty is a programming error that fails fast. -/
def lease_global (tid : Nat) (app : AppContext) :
    Except Fatal (AnyBox × AppContext) :=
  match app.globals tid with
  | some g => .ok (g, leaseCtx tid app)
  | none => .error .globalAlreadyLeased

/-- Modelled from the spec: `AppContext::end_global_lease` (app-context layer,
not in this file) returns the instance to its slot. -/
def end_global_lease (tid : Nat) (g : AnyBox) (app : AppContext) :
    AppContext :=
  { app with globals := setSlot tid (some g) app.globals }

/-- The method `ModelContext::update_global`: lease the global of type `tid`
out of its slot, run `f` with the instance and the same mutation context, end
the lease with whatever `f` left in the instance, and return the result of
`f`. -/
def update_global {R : Type} (tid : Nat)
    (f : AnyBox → AppContext → R × AnyBox × AppContext) (app : AppContext) :
    Except Fatal (R × AppContext) :=
  match lease_global tid app with
  | .error e => .error e
  | .ok (g, app1) =>
      let r := f g app1
      .ok (r.1, end_global_lease tid r.2.1 r.2.2)

/-- The registration `ModelContext::observe`: capture the watcher's weak
handle and the watched entity's id and weak handle, and insert one entry into
the observer table keyed by the watched id. -/
def observe (selfId watchedId handlerTag : Nat) (app : AppContext) :
    Subscription × AppContext :=
  let r := insertTable watchedId
    (ObserverEntry.mk selfId watchedId handlerTag) app.observers
  (r.1, { app with observers := r.2 })

/-- The registration `ModelContext::subscribe`: insert one entry into the
event-listener table keyed by the watched id, capturing the declared event
type for the dispatch-time downcast. -/
def subscribe (selfId watchedId eventTy handlerTag : Nat) (app : AppContext) :
    Subscription × AppContext :=
  let r := insertTable watchedId
    (EventListenerEntry.mk selfId watchedId eventTy handlerTag)
    app.event_listeners
  (r.1, { app with event_listeners := r.2 })

/-- The registration `ModelContext::on_release`: insert one entry into the
release-listener table keyed by this entity's own id. -/
def on_release (selfId entityTy handlerTag : Nat) (app : AppContext) :
    Subscription × AppContext :=
  let r := insertTable selfId
    (ReleaseEntry.selfRelease entityTy handlerTag) app.release_listeners
  (r.1, { app with release_listeners := r.2 })

/-- The registration `ModelContext::observe_release`: insert one entry into
the release-listener table keyed by the watched entity's id, capturing the
watcher's weak handle. -/
def observe_release (selfId watchedId watchedTy handlerTag : Nat)
    (app : AppContext) : Subscription × AppContext :=
  let r := insertTable watchedId
    (ReleaseEntry.watcherRelease selfId watchedTy handlerTag)
    app.release_listeners
  (r.1, { app with release_listeners := r.2 })

/-- The registration `ModelContext::observe_global`: insert one entry into the
global-observer table keyed by the global type id. -/
def observe_global (selfId gTy handlerTag : Nat) (app : AppContext) :
    Subscription × AppContext :=
  let r := insertTable gTy
    (GlobalObserverEntry.mk selfId handlerTag) app.global_observers
  (r.1, { app with global_observers := r.2 })

/-- The registration `ModelContext::on_app_quit`: insert one entry into the
quit-observer table under the singleton unit key. -/
def on_app_quit (selfId handlerTag : Nat) (app : AppContext) :
    Subscription × AppContext :=
  let r := insertTable () (QuitEntry.mk selfId handlerTag) app.quit_observers
  (r.1, { app with quit_observers := r.2 })

/-- A user `on_notify` closure: watcher state, upgraded watched handle,
mutation context; may mutate the state and the context. -/
abbrev NotifyHandler := AnyBox → Nat → AppContext → AnyBox × AppContext

/-- A user `on_event` closure: watcher state, upgraded watched handle, the
downcast event payload, mutation context. -/
abbrev EventHandler := AnyBox → Nat → Nat → AppContext → AnyBox × AppContext

/-- A user `on_release` closure for `observe_release`: watcher state, the
dying entity's state, mutation context; may mutate all three. -/
abbrev ReleaseHandler :=
  AnyBox → AnyBox → AppContext → AnyBox × AnyBox × AppContext

/-- The closure stored by `observe`: upgrade the watcher's weak handle and the
watched entity's weak handle; if both are alive run `on_notify` under a fresh
mutation scope for the watcher and keep the registration (true), else prune it
(false). -/
def fireObserver (watcher watched : Nat) (onNotify : NotifyHandler)
    (app : AppContext) : Bool × AppContext :=
  match upgrade watcher app, upgrade watched app with
  | some thisM, some handleM =>
      (true, updateEntity thisM (fun st cx => onNotify st handleM cx) app)
  | _, _ => (false, app)

/-- The body of the closure stored by `subscribe` after the successful
downcast: identical in shape to the `observe` closure, passing the typed event
payload through. -/
def dispatchEvent (watcher watched : Nat) (ev : Nat) (onEvent : EventHandler)
    (app : AppContext) : Bool × AppContext :=
  match upgrade watcher app, upgrade watched app with
  | some thisM, some handleM =>
      (true, updateEntity thisM (fun st cx => onEvent st handleM ev cx) app)
  | _, _ => (false, app)

/-- The closure stored by `subscribe`: downcast the type-erased event payload
to the declared event type — a failed downcast is the fatal
`expect("invalid event type")` branch — then dispatch as `observe` does. -/
def fireEventListener (watcher watched eventTy : Nat) (onEvent : EventHandler)
    (ev : AnyBox) (app : AppContext) : Except Fatal (Bool × AppContext) :=
  match downcastRef eventTy ev with
  | some v => .ok (dispatchEvent watcher watched v onEvent app)
  | none => .error .invalidEventType

/-- The closure stored by `observe_release`: downcast the dying entity's state
(fatal `expect("invalid entity type")` on mismatch); if the watcher's weak
handle upgrades, run `on_release` under the watcher's mutation scope,
otherwise skip silently. -/
def fireWatcherRelease (watcher watchedTy : Nat) (onRel : ReleaseHandler)
    (dying : AnyBox) (app : AppContext) : Except Fatal (AnyBox × AppContext) :=
  if dying.typeId = watchedTy then
    match upgrade watcher app with
    | some thisM =>
        match app.entities thisM with
        | some st =>
            let r := onRel st dying app
            .ok (r.2.1, setEntity thisM r.1 r.2.2)
        | none => .ok (dying, app)
    | none => .ok (dying, app)
  else .error .invalidEntityType

/-! Helper lemmas. -/

/-- A `notify` on an id that is already pending changes nothing. -/
theorem notify_pending_noop (selfId : Nat) (a : AppContext)
    (h : selfId ∈ a.pending_notifications) : notify selfId a = a := by
  simp [notify, h]

/-- A `notify` on an id that is not yet pending marks it and enqueues one
`Notify` effect. -/
theorem notify_fresh (selfId : Nat) (a : AppContext)
    (h : selfId ∉ a.pending_notifications) :
    notify selfId a
      = { a with
          pending_notifications := a.pending_notifications ++ [selfId],
          pending_effects := a.pending_effects ++ [Effect.Notify selfId] } := by
  simp [notify, h]

/-- Iterating `notify` on an already-pending id changes nothing. -/
theorem notifyTimes_pending_noop (n selfId : Nat) (a : AppContext)
    (h : selfId ∈ a.pending_notifications) : notifyTimes n selfId a = a := by
  induction n with
  | zero => rfl
  | succ m ih =>
      show notifyTimes m selfId (notify selfId a) = a
      rw [notify_pending_noop selfId a h]
      exact ih

/-! Sample data used by the witness theorems. -/

/-- A sample app context: entities 0, 1, 2 alive, a global of type 5 in its
slot, empty queues and tables. -/
def app1 : AppContext :=
  { entities := fun i => if i ≤ 2 then some ⟨0, i⟩ else none,
    globals := fun t => if t = 5 then some ⟨5, 7⟩ else none,
    pending_notifications := [],
    pending_effects := [],
    observers := [],
    event_listeners := [],
    release_listeners := [],
    global_observers := [],
    quit_observers := [] }

/-- A variant of `app1` in which only entity 2 is alive (entity 1 has died). -/
def appDead1 : AppContext :=
  { app1 with entities := fun i => if i = 2 then some ⟨0, 2⟩ else none }

/-- A sample `on_notify` closure. -/
def hNotify : NotifyHandler :=
  fun st h cx => (⟨st.typeId, st.payload + h⟩, cx)

/-- A sample `on_event` closure. -/
def hEvent : EventHandler :=
  fun st h v cx => (⟨st.typeId, st.payload + h + v⟩, cx)

/-- A sample `on_release` closure for `observe_release`. -/
def hRelease : ReleaseHandler :=
  fun st dy cx => (st, ⟨dy.typeId, dy.payload + 1⟩, cx)

/-! The claims. -/

/-- C1: calling `notify` N times (N ≥ 1) within a single mutation enqueues
exactly one `Notify` effect for this entity: the first call inserts the id
into the pending-notification set and appends one `Notify { emitter := id }`
effect to the pending-effect queue, and every later call while the id is still
pending changes neither the set nor the queue. -/
theorem notify_coalesces_within_mutation (selfId : Nat) (app : AppContext)
    (n : Nat) (h1 : 1 ≤ n) (h2 : selfId ∉ app.pending_notifications) :
    notifyTimes n selfId app
      = { app with
          pending_notifications := app.pending_notifications ++ [selfId],
          pending_effects := app.pending_effects ++ [Effect.Notify selfId] }
      ∧ ∀ a : AppContext, selfId ∈ a.pending_notifications →
          notify selfId a = a := by
  refine ⟨?_, fun a ha => notify_pending_noop selfId a ha⟩
  match n, h1 with
  | Nat.succ m, _ =>
      show notifyTimes m selfId (notify selfId app) = _
      rw [notify_fresh selfId app h2]
      exact notifyTimes_pending_noop m selfId _ (by simp)

/-- Witness for C1 at a concrete context: three calls yield one pending id and
one queued `Notify` effect. -/
theorem notify_coalesces_within_mutation_witness :
    notifyTimes 3 1 app1
      = { app1 with
          pending_notifications := [1],
          pending_effects := [Effect.Notify 1] }
      ∧ ∀ a : AppContext, 1 ∈ a.pending_notifications → notify 1 a = a :=
  notify_coalesces_within_mutation 1 app1 3 (by decide) (by simp [app1])

/-- C3: calling `emit` once per event of a list, within one mutation, appends
exactly that many `Emit` effects to the pending-effect queue — each carrying
this entity's id and the boxed event, in call order, with no deduplication —
and changes nothing else in the context. -/
theorem emit_appends_in_order (selfId : Nat) (events : List AnyBox)
    (app : AppContext) :
    emitAll selfId events app
      = { app with
          pending_effects :=
            app.pending_effects ++ events.map (Effect.Emit selfId) }
      ∧ (emitAll selfId events app).pending_effects.length
          = app.pending_effects.length + events.length := by
  refine ⟨?_, ?_⟩
  · induction events generalizing app with
    | nil => simp [emitAll]
    | cons e rest ih =>
        show emitAll selfId rest (emit selfId e app) = _
        rw [ih]
        simp [emit]
  · induction events generalizing app with
    | nil => simp [emitAll]
    | cons e rest ih =>
        show (emitAll selfId rest (emit selfId e app)).pending_effects.length
              = _
        rw [ih]
        simp [emit]
        omega

/-- C7: `handle` upgrades the context's own weak handle and fails fatally
(programming-error class, not a recoverable result) if the upgrade fails;
under the precondition that the context's entity is alive, the fatal branch is
unreachable and `handle` returns a strong handle to that entity. -/
theorem handle_upgrade_semantics (selfId : Nat) (app : AppContext) :
    (app.entities selfId = none →
        handle selfId app = .error Fatal.entityNotAlive)
  ∧ ((app.entities selfId).isSome = true → handle selfId app = .ok selfId) := by
  constructor
  · intro h
    simp [handle, upgrade, h]
  · intro h
    simp [handle, upgrade, h]

/-- Witness for C7 at a concrete context: entity 9 is dead (fatal branch),
entity 1 is alive (strong handle returned). -/
theorem handle_upgrade_semantics_witness :
    handle 9 app1 = .error Fatal.entityNotAlive ∧ handle 1 app1 = .ok 1 :=
  ⟨(handle_upgrade_semantics 9 app1).1 rfl,
   (handle_upgrade_semantics 1 app1).2 rfl⟩

/-- C10: every registration operation (`observe`, `subscribe`, `on_release`,
`observe_release`, `observe_global`, `on_app_quit`) leaves the pending-effect
queue, the pending-notification set, the entity storage, the global slots and
every other listener table unchanged and does not invoke the supplied handler:
its only state change is appending one entry to its own listener table, and it
returns the resulting `Subscription`. -/
theorem registration_frame_condition (app : AppContext)
    (selfId watchedId eventTy entityTy watchedTy gTy hTag : Nat) :
    observe selfId watchedId hTag app
      = (⟨app.observers.length⟩,
         { app with observers :=
             app.observers ++ [(watchedId, ⟨selfId, watchedId, hTag⟩)] })
  ∧ subscribe selfId watchedId eventTy hTag app
      = (⟨app.event_listeners.length⟩,
         { app with event_listeners :=
             app.event_listeners
               ++ [(watchedId, ⟨selfId, watchedId, eventTy, hTag⟩)] })
  ∧ on_release selfId entityTy hTag app
      = (⟨app.release_listeners.length⟩,
         { app with release_listeners :=
             app.release_listeners
               ++ [(selfId, ReleaseEntry.selfRelease entityTy hTag)] })
  ∧ observe_release selfId watchedId watchedTy hTag app
      = (⟨app.release_listeners.length⟩,
         { app with release_listeners :=
             app.release_listeners
               ++ [(watchedId,
                    ReleaseEntry.watcherRelease selfId watchedTy hTag)] })
  ∧ observe_global selfId gTy hTag app
      = (⟨app.global_observers.length⟩,
         { app with global_observers :=
             app.global_observers ++ [(gTy, ⟨selfId, hTag⟩)] })
  ∧ on_app_quit selfId hTag app
      = (⟨app.quit_observers.length⟩,
         { app with quit_observers :=
             app.quit_observers ++ [((), ⟨selfId, hTag⟩)] }) :=
  ⟨rfl, rfl, rfl, rfl, rfl, rfl⟩

/-- C2: calling `update_global` for a type whose lease is already outstanding
(the slot is empty because a nested `update_global` of the same type is in
progress) fails fast as a programming error rather than yielding a second
mutable reference: the inner call's result is the fatal error, while the outer
lease completes normally. -/
theorem update_global_nested_same_type_fails {R : Type} (tid : Nat)
    (g : AnyBox) (inner : AnyBox → AppContext → R × AnyBox × AppContext)
    (app : AppContext) (hg : app.globals tid = some g) :
    update_global tid
        (fun gv ctx => (update_global tid inner ctx, gv, ctx)) app
      = .ok (.error Fatal.globalAlreadyLeased,
             end_global_lease tid g (leaseCtx tid app)) := by
  simp [update_global, lease_global, hg, leaseCtx, setSlot]

/-- Witness for C2: in a concrete context holding a global of type 5, the
nested same-type lease attempt fails fast. -/
theorem update_global_nested_same_type_fails_witness :
    update_global 5
        (fun gv ctx =>
          (update_global 5 (fun g cx => (g.payload, g, cx)) ctx, gv, ctx))
        app1
      = .ok (.error Fatal.globalAlreadyLeased,
             end_global_lease 5 ⟨5, 7⟩ (leaseCtx 5 app1)) :=
  update_global_nested_same_type_fails 5 ⟨5, 7⟩
    (fun g cx => (g.payload, g, cx)) app1 rfl

/-- C4: for a global type whose slot holds an instance, `update_global` leases
the instance out (the slot is empty while `f` runs), invokes `f` exactly once
with the instance and the same mutation context, then on `f`'s normal return
puts `f`'s instance back into the slot and returns `f`'s result unchanged. -/
theorem update_global_lease_roundtrip {R : Type} (tid : Nat) (g : AnyBox)
    (f : AnyBox → AppContext → R × AnyBox × AppContext) (app : AppContext)
    (hg : app.globals tid = some g) :
    (leaseCtx tid app).globals tid = none
  ∧ update_global tid f app
      = .ok ((f g (leaseCtx tid app)).1,
             end_global_lease tid (f g (leaseCtx tid app)).2.1
               (f g (leaseCtx tid app)).2.2)
  ∧ (end_global_lease tid (f g (leaseCtx tid app)).2.1
        (f g (leaseCtx tid app)).2.2).globals tid
      = some (f g (leaseCtx tid app)).2.1 := by
  refine ⟨?_, ?_, ?_⟩
  · simp [leaseCtx, setSlot]
  · simp [update_global, lease_global, hg]
  · simp [end_global_lease, setSlot]

/-- Witness for C4 at a concrete context, global type 5 holding instance
payload 7, with a closure that bumps the instance and also mutates the
context. -/
theorem update_global_lease_roundtrip_witness :
    (leaseCtx 5 app1).globals 5 = none
  ∧ update_global 5
        (fun g cx => (g.payload, AnyBox.mk g.typeId (g.payload + 1), notify 1 cx))
        app1
      = .ok (7,
             end_global_lease 5 ⟨5, 8⟩ (notify 1 (leaseCtx 5 app1)))
  ∧ (end_global_lease 5 ⟨5, 8⟩ (notify 1 (leaseCtx 5 app1))).globals 5
      = some ⟨5, 8⟩ :=
  update_global_lease_roundtrip 5 ⟨5, 7⟩
    (fun g cx => (g.payload, AnyBox.mk g.typeId (g.payload + 1), notify 1 cx))
    app1 rfl

/-- C5: when the closure stored by `observe` fires: if both the watcher and
the watched entity are alive, `on_notify` runs exactly once under a fresh
mutation scope for the watcher — receiving the watcher's state and the
upgraded handle to the watched entity — and the callback returns true (the
registration persists); if the watcher cannot be upgraded, `on_notify` does
not run (the context is returned untouched for every handler) and the
callback returns false (the registration is pruned). -/
theorem observe_callback_fire_semantics (watcher watched : Nat)
    (onNotify : NotifyHandler) (app : AppContext) :
    (∀ st, app.entities watcher = some st →
        (app.entities watched).isSome = true →
        fireObserver watcher watched onNotify app
          = (true,
             setEntity watcher (onNotify st watched app).1
               (onNotify st watched app).2))
  ∧ (app.entities watcher = none →
        fireObserver watcher watched onNotify app = (false, app)) := by
  constructor
  · intro st h1 h2
    simp [fireObserver, upgrade, h1, h2, updateEntity]
  · intro h
    simp [fireObserver, upgrade, h]

/-- Witness for C5 at a concrete context: with watcher 1 and watched 2 alive
the handler fires once and returns true; with watcher 1 dead the handler is
skipped and returns false. -/
theorem observe_callback_fire_semantics_witness :
    fireObserver 1 2 hNotify app1
      = (true,
         setEntity 1 (hNotify ⟨0, 1⟩ 2 app1).1 (hNotify ⟨0, 1⟩ 2 app1).2)
  ∧ fireObserver 1 2 hNotify appDead1 = (false, appDead1) :=
  ⟨(observe_callback_fire_semantics 1 2 hNotify app1).1 ⟨0, 1⟩ rfl rfl,
   (observe_callback_fire_semantics 1 2 hNotify appDead1).2 rfl⟩

/-- C6: when the closure stored by `subscribe` is dispatched with a
type-erased event payload: if the payload fails to downcast to the watched
entity's declared event type, the callback aborts fatally (programming-error
class) rather than silently skipping; under the precondition that the payload
has the declared event type, the fatal branch is unreachable and dispatch
proceeds. -/
theorem subscribe_downcast_fatal_on_mismatch (watcher watched eventTy : Nat)
    (onEvent : EventHandler) (ev : AnyBox) (app : AppContext) :
    (ev.typeId ≠ eventTy →
        fireEventListener watcher watched eventTy onEvent ev app
          = .error Fatal.invalidEventType)
  ∧ (ev.typeId = eventTy →
        fireEventListener watcher watched eventTy onEvent ev app
          = .ok (dispatchEvent watcher watched ev.payload onEvent app)) := by
  constructor
  · intro h
    simp [fireEventListener, downcastRef, h]
  · intro h
    simp [fireEventListener, downcastRef, h]

/-- Witness for C6 at a concrete context: a payload of type 3 dispatched
against declared type 4 aborts fatally; against declared type 3 dispatch
proceeds. -/
theorem subscribe_downcast_fatal_on_mismatch_witness :
    fireEventListener 1 2 4 hEvent ⟨3, 9⟩ app1 = .error Fatal.invalidEventType
  ∧ fireEventListener 1 2 3 hEvent ⟨3, 9⟩ app1
      = .ok (dispatchEvent 1 2 9 hEvent app1) :=
  ⟨(subscribe_downcast_fatal_on_mismatch 1 2 4 hEvent ⟨3, 9⟩ app1).1
      (by decide),
   (subscribe_downcast_fatal_on_mismatch 1 2 3 hEvent ⟨3, 9⟩ app1).2 rfl⟩

/-- C8: when the closure stored by `observe_release` fires with the dying
entity's correctly-typed state, the handler runs — once, under the watcher's
own mutation scope, receiving the watcher's state and the dying entity's
state — if and only if the watcher is still alive at that moment; if the
watcher's weak handle fails to upgrade, the handler is skipped without error
(the dying state and the context are returned untouched for every handler). -/
theorem observe_release_fires_iff_watcher_alive (watcher watchedTy : Nat)
    (onRel : ReleaseHandler) (dying : AnyBox) (app : AppContext)
    (hty : dying.typeId = watchedTy) :
    (∀ st, app.entities watcher = some st →
        fireWatcherRelease watcher watchedTy onRel dying app
          = .ok ((onRel st dying app).2.1,
                 setEntity watcher (onRel st dying app).1
                   (onRel st dying app).2.2))
  ∧ (app.entities watcher = none →
        fireWatcherRelease watcher watchedTy onRel dying app
          = .ok (dying, app)) := by
  constructor
  · intro st h1
    simp [fireWatcherRelease, hty, upgrade, h1]
  · intro h
    simp [fireWatcherRelease, hty, upgrade, h]

/-- Witness for C8 at a concrete context: with watcher 1 alive the handler
runs once under the watcher's scope; with watcher 9 dead it is skipped without
error. -/
theorem observe_release_fires_iff_watcher_alive_witness :
    fireWatcherRelease 1 4 hRelease ⟨4, 0⟩ app1
      = .ok ((hRelease ⟨0, 1⟩ ⟨4, 0⟩ app1).2.1,
             setEntity 1 (hRelease ⟨0, 1⟩ ⟨4, 0⟩ app1).1
               (hRelease ⟨0, 1⟩ ⟨4, 0⟩ app1).2.2)
  ∧ fireWatcherRelease 9 4 hRelease ⟨4, 0⟩ app1 = .ok (⟨4, 0⟩, app1) :=
  ⟨(observe_release_fires_iff_watcher_alive 1 4 hRelease ⟨4, 0⟩ app1 rfl).1
      ⟨0, 1⟩ rfl,
   (observe_release_fires_iff_watcher_alive 9 4 hRelease ⟨4, 0⟩ app1 rfl).2
      rfl⟩

/-- C9: the closures stored by `observe` and `subscribe` return false
(signalling pruning of the registration) whenever either upgrade fails — the
watcher has died, or the watcher is still alive but the watched entity has
died — and in every such case the handler does not run (the context is
returned untouched for every handler). -/
theorem callbacks_prune_on_upgrade_failure (watcher watched eventTy : Nat)
    (onNotify : NotifyHandler) (onEvent : EventHandler) (ev : AnyBox)
    (app : AppContext)
    (hfail : app.entities watcher = none ∨ app.entities watched = none)
    (hty : ev.typeId = eventTy) :
    fireObserver watcher watched onNotify app = (false, app)
  ∧ fireEventListener watcher watched eventTy onEvent ev app
      = .ok (false, app) := by
  cases hfail with
  | inl h =>
      constructor
      · simp [fireObserver, upgrade, h]
      · simp [fireEventListener, downcastRef, hty, dispatchEvent, upgrade, h]
  | inr h =>
      constructor
      · unfold fireObserver
        rw [show upgrade watched app = none from by simp [upgrade, h]]
        cases upgrade watcher app <;> rfl
      · unfold fireEventListener dispatchEvent
        rw [show downcastRef eventTy ev = some ev.payload from by
              simp [downcastRef, hty],
            show upgrade watched app = none from by simp [upgrade, h]]
        cases upgrade watcher app <;> rfl

/-- Witness for C9 at a concrete context, exercising both failure cases: with
watcher 9 dead and watched 1 alive, and with watcher 1 alive and watched 9
dead, both stored callbacks signal pruning without running their handlers. -/
theorem callbacks_prune_on_upgrade_failure_witness :
    (fireObserver 9 1 hNotify app1 = (false, app1)
      ∧ fireEventListener 9 1 3 hEvent ⟨3, 5⟩ app1 = .ok (false, app1))
  ∧ (fireObserver 1 9 hNotify app1 = (false, app1)
      ∧ fireEventListener 1 9 3 hEvent ⟨3, 5⟩ app1 = .ok (false, app1)) :=
  ⟨callbacks_prune_on_upgrade_failure 9 1 3 hNotify hEvent ⟨3, 5⟩ app1
      (Or.inl rfl) rfl,
   callbacks_prune_on_upgrade_failure 1 9 3 hNotify hEvent ⟨3, 5⟩ app1
      (Or.inr rfl) rfl⟩

end GpuiKernel
